import Mathlib

/-!
# Verification of the plist decoder

A shallow embedding of the plist decoding engine (`plist.go`): the tag
scanner `next`, the recursive value decoder `unmarshalValue` with its
`<dict>` and `<array>` loops, the subtree skipper `skipValue`, and the
document decoder `Unmarshal`.

Modelling conventions:
* Raw bytes are modelled as `List Char`.  All delimiters the scanner looks
  for (`<`, `>`) are single-byte ASCII, so scanning characters agrees with
  scanning bytes.
* Go's in-place mutation through `reflect.Value` is modelled by explicit
  state passing: the decoder receives the destination's type descriptor
  (`PType`) and current value (`PVal`) and returns the new value.
* Fallible operations return `Except PErr`; `PErr.panic` records a Go
  runtime panic raised by `reflect.Value.Set` when the assigned value's
  type is not assignable to the destination type, `PErr.msg` an ordinary
  `error` built with `fmt.Errorf`.
* The mutually recursive decoding loops take an explicit fuel argument so
  that all definitions are structurally recursive and kernel-evaluable;
  `PErr.outOfFuel` is an artifact of this termination device and is never
  produced when the fuel exceeds the number of tokens in the input.
* `strconv.Atoi` is modelled on 64-bit `int`; `strconv.ParseFloat` is
  modelled for the decimal forms, producing the exact rational value of
  the decimal text (IEEE rounding is abstracted; the `bitSize` argument is
  threaded through as in the source).  `time.Parse` with the RFC3339
  layout and `base64.StdEncoding.DecodeString` are modelled at the level
  of their accepted grammars.
-/

/-- Convert a string literal to the byte span it denotes. -/
def s2l (s : String) : List Char := s.data

/-- Convert a byte span back to a string (Go's `string(b)`). -/
def l2s (l : List Char) : String := String.mk l

/-- Split a span at the first occurrence of `c` (Go's `bytes.IndexByte`):
`some (before, fromC)` where `fromC` starts with `c`, or `none` when `c`
does not occur. -/
def spanUntil (c : Char) : List Char → Option (List Char × List Char)
  | [] => none
  | x :: xs =>
    if x = c then some ([], x :: xs)
    else
      match spanUntil c xs with
      | none => none
      | some (a, b) => some (x :: a, b)

/-- The tag scanner (`next` in `plist.go`): returns the content before the
next `<...>` token, the token itself (delimiters included), and the rest.
If no `<` is found, or no `>` at or after the first `<`, it returns the
whole input as content with an empty token. -/
def next (data : List Char) : List Char × List Char × List Char :=
  match spanUntil '<' data with
  | none => (data, [], [])
  | some (skip, tdata) =>
    match spanUntil '>' tdata with
    | none => (data, [], [])
    | some (tok, rest') =>
      match rest' with
      | [] => (data, [], [])
      | g :: rest => (skip, tok ++ [g], rest)

/-- The cases of the `switch string(tag)` dispatch in `unmarshalValue`. -/
inductive TagK where
  | dict | array | str | integer | real | date | data | btrue | bfalse | other
deriving DecidableEq

/-- Classify a token exactly as the `switch` in `unmarshalValue` does. -/
def tagKind (tag : List Char) : TagK :=
  if tag = s2l "<dict>" then .dict
  else if tag = s2l "<array>" then .array
  else if tag = s2l "<string>" then .str
  else if tag = s2l "<integer>" then .integer
  else if tag = s2l "<real>" then .real
  else if tag = s2l "<date>" then .date
  else if tag = s2l "<data>" then .data
  else if tag = s2l "<true/>" then .btrue
  else if tag = s2l "<false/>" then .bfalse
  else .other

mutual
/-- Destination type descriptors: the Go types reachable by the decoder's
reflection. -/
inductive PType where
  | str
  | int
  | float32
  | float64
  | bool
  | date
  | uint8
  | ptr (elem : PType)
  | slice (elem : PType)
  | strukt (fields : PFields)
  | iface

/-- A struct type's field list, in declaration order: each field has a
name, an optional `plist:"..."` tag (`none` when the field carries no
tag), and a type. -/
inductive PFields where
  | nil
  | cons (name : String) (tag : Option String) (t : PType) (rest : PFields)
end

/-- Number of fields (`t.NumField()`). -/
def PFields.length : PFields → Nat
  | .nil => 0
  | .cons _ _ _ rest => rest.length + 1

/-- Field at index `i` as a `(name, tag, type)` triple, with a default for
out-of-range indices (the decoder only uses in-range indices). -/
def PFields.getD : PFields → Nat → String × Option String × PType → String × Option String × PType
  | .nil, _, d => d
  | .cons n tg t _, 0, _ => (n, tg, t)
  | .cons _ _ _ rest, i + 1, d => rest.getD i d

/-- Runtime values of those types.  `iface` boxes the concrete value a
dynamic (`interface{}`) destination received, `ptr none` is a nil
pointer, `bytes` is a `[]byte` produced by base64 decoding, `date` a
`time.Time` as broken-down RFC3339 components plus a UTC offset. -/
inductive PVal where
  | str (s : String)
  | int (n : Int)
  | real (q : ℚ)
  | bool (b : Bool)
  | date (y mo d h mi se ns : Nat) (offMin : Int)
  | bytes (bs : List Nat)
  | ptr (v : Option PVal)
  | strukt (fieldVals : List PVal)
  | slice (elems : List PVal)
  | iface (v : Option PVal)

/-- Decode outcomes: `msg` is an `error` returned with `fmt.Errorf`,
`panic` a runtime panic raised by `reflect.Value.Set`, `outOfFuel` the
artifact of the fuel-based termination measure. -/
inductive PErr where
  | msg (s : String)
  | panic (s : String)
  | outOfFuel
deriving DecidableEq

/-- Go's printed name of a type, as `fmt.Errorf("%s", v.Type())` shows it
(anonymous struct types are abbreviated to `struct {...}`). -/
def typeName : PType → String
  | .str => "string"
  | .int => "int"
  | .float32 => "float32"
  | .float64 => "float64"
  | .bool => "bool"
  | .date => "time.Time"
  | .uint8 => "uint8"
  | .ptr t => "*" ++ typeName t
  | .slice t => "[]" ++ typeName t
  | .strukt _ => "struct \x7b...\x7d"
  | .iface => "interface \x7b\x7d"

/-- Go's printed name of the dynamic type of a value the decoder creates
with `reflect.ValueOf` (only the six scalar shapes are ever passed to
`Set`). -/
def goTypeOfVal : PVal → String
  | .str _ => "string"
  | .int _ => "int"
  | .real _ => "float64"
  | .bool _ => "bool"
  | .date _ _ _ _ _ _ _ _ => "time.Time"
  | .bytes _ => "[]uint8"
  | .ptr _ => "pointer"
  | .strukt _ => "struct"
  | .slice _ => "slice"
  | .iface _ => "interface \x7b\x7d"

/-- Whether the dynamic type of a decoder-created value is assignable to
the destination type, per Go assignability: identical types, or an empty
interface destination.  Note the `<real>` branch always creates a
`float64` (`strconv.ParseFloat` returns `float64`), which is *not*
assignable to `float32`. -/
def settable : PType → PVal → Bool
  | .iface, _ => true
  | .str, .str _ => true
  | .int, .int _ => true
  | .float64, .real _ => true
  | .bool, .bool _ => true
  | .date, .date _ _ _ _ _ _ _ _ => true
  | .slice .uint8, .bytes _ => true
  | _, _ => false

/-- Box a value when the destination is an empty interface. -/
def boxVal : PType → PVal → PVal
  | .iface, v => .iface (some v)
  | _, v => v

/-- `reflect.Value.Set`: succeeds when assignable (boxing into an empty
interface), otherwise panics with Go's message. -/
def goSet (t : PType) (v : PVal) : Except PErr PVal :=
  if settable t v then .ok (boxVal t v)
  else
    .error (.panic ("reflect.Set: value of type " ++ goTypeOfVal v ++
      " is not assignable to type " ++ typeName t))

mutual
/-- Zero values (`reflect.New(t).Elem()`). -/
def zeroVal : PType → PVal
  | .str => .str ""
  | .int => .int 0
  | .float32 => .real 0
  | .float64 => .real 0
  | .bool => .bool false
  | .date => .date 1 1 1 0 0 0 0 0
  | .uint8 => .int 0
  | .ptr _ => .ptr none
  | .slice _ => .slice []
  | .strukt fields => .strukt (zeroFields fields)
  | .iface => .iface none

/-- Zero values of a struct's fields, in order. -/
def zeroFields : PFields → List PVal
  | .nil => []
  | .cons _ _ t rest => zeroVal t :: zeroFields rest
end

/-- Value behind a pointer destination: the pointee, or a freshly
allocated zero value when the pointer is nil
(`v.Set(reflect.New(v.Type().Elem()))`, auto-vivification). -/
def unwrapPtr (t0 : PType) : PVal → PVal
  | .ptr (some x) => x
  | _ => zeroVal t0

/-- Current field values of a struct destination. -/
def structVals (cur : PVal) (fields : PFields) : List PVal :=
  match cur with
  | .strukt vs => vs
  | _ => zeroFields fields

/-- Current elements of a slice destination. -/
def sliceVals (cur : PVal) : List PVal :=
  match cur with
  | .slice es => es
  | _ => []

/-- Whether the destination's reflect kind is `Float32` (selects the
`bitSize` passed to `strconv.ParseFloat` in the `<real>` branch). -/
def isFloat32T : PType → Bool
  | .float32 => true
  | _ => false

/-- The field-matching test of the `<dict>` loop:
`f.Name == name || f.Tag.Get("plist") == name`.  `StructTag.Get` returns
the empty string when the tag is absent. -/
def fieldMatches (f : String × Option String × PType) (name : String) : Bool :=
  f.1 == name || f.2.1.getD "" == name

/-- The field search loop of the `<dict>` branch: index of the first
matching field in declaration order. -/
def findField : PFields → String → Option Nat
  | .nil, _ => none
  | .cons n tg t rest, name =>
    if fieldMatches (n, tg, t) name then some 0
    else (findField rest name).map (· + 1)

/-- Default triple used with `PFields.getD`; `findField` only returns
in-range indices, so it is never observed. -/
def dfltField : String × Option String × PType := ("", none, .iface)

/-- Numeric value of a digit run. -/
def digitsToNat (l : List Char) : Nat :=
  l.foldl (fun a c => a * 10 + (c.toNat - 48)) 0

/-- `strconv.Atoi` (`ParseInt(s, 10, 0)` with 64-bit `int`): optional
sign, one or more decimal digits, range-checked. -/
def goAtoi (s : String) : Option Int :=
  let p : Int × List Char :=
    match s.data with
    | '+' :: rest => (1, rest)
    | '-' :: rest => (-1, rest)
    | l => (1, l)
  if p.2 = [] then none
  else if p.2.all (fun c => c.isDigit) then
    let v : Int := p.1 * (digitsToNat p.2 : Int)
    if -(2 ^ 63) ≤ v ∧ v ≤ 2 ^ 63 - 1 then some v else none
  else none

/-- Mantissa of a decimal floating literal: digits, an optional point,
more digits, at least one digit in total.  Returns the digits' value, the
number of fraction digits, and the unconsumed remainder. -/
def parseMant (l : List Char) : Option (Nat × Nat × List Char) :=
  let ip := l.span Char.isDigit
  match ip.2 with
  | '.' :: r =>
    let fp := r.span Char.isDigit
    if ip.1 = [] ∧ fp.1 = [] then none
    else some (digitsToNat (ip.1 ++ fp.1), fp.1.length, fp.2)
  | l3 =>
    if ip.1 = [] then none else some (digitsToNat ip.1, 0, l3)

/-- Optional exponent part `e`/`E`, optional sign, one or more digits. -/
def parseExp : List Char → Option (Int × List Char)
  | [] => some (0, [])
  | c :: r =>
    if c = 'e' ∨ c = 'E' then
      let p : Int × List Char :=
        match r with
        | '+' :: rr => (1, rr)
        | '-' :: rr => (-1, rr)
        | rr => (1, rr)
      let ds := p.2.span Char.isDigit
      if ds.1 = [] then none else some (p.1 * (digitsToNat ds.1 : Int), ds.2)
    else some (0, c :: r)

/-- `strconv.ParseFloat` on the decimal forms: sign, mantissa, optional
exponent, nothing left over.  The exact rational value of the text is
produced; IEEE rounding to `bitSize` bits is abstracted away (no claim
settled here depends on the rounded value). -/
def goParseFloat (s : String) (_bitSize : Nat) : Option ℚ :=
  let p : Bool × List Char :=
    match s.data with
    | '+' :: r => (false, r)
    | '-' :: r => (true, r)
    | r => (false, r)
  match parseMant p.2 with
  | none => none
  | some (m, fdigs, l2) =>
    match parseExp l2 with
    | none => none
    | some (e, l3) =>
      if l3 = [] then
        some (mkRat ((if p.1 then -1 else 1) * (m * 10 ^ e.toNat : Nat))
          ((10 : Nat) ^ fdigs * 10 ^ (-e).toNat))
      else none

/-- Exactly two decimal digits. -/
def parseD2 : List Char → Option (Nat × List Char)
  | a :: b :: r =>
    if a.isDigit ∧ b.isDigit then some ((a.toNat - 48) * 10 + (b.toNat - 48), r)
    else none
  | _ => none

/-- Exactly four decimal digits. -/
def parseD4 (l : List Char) : Option (Nat × List Char) :=
  match parseD2 l with
  | none => none
  | some (hi, r) =>
    match parseD2 r with
    | none => none
    | some (lo, r2) => some (hi * 100 + lo, r2)

/-- Days in a month, with Gregorian leap years. -/
def daysInMonth (y m : Nat) : Nat :=
  if m = 2 then
    if y % 4 = 0 ∧ (y % 100 ≠ 0 ∨ y % 400 = 0) then 29 else 28
  else if m = 4 ∨ m = 6 ∨ m = 9 ∨ m = 11 then 30
  else 31

/-- Fractional seconds: a point followed by one or more digits, truncated
to nanoseconds; or nothing. -/
def parseFrac : List Char → Option (Nat × List Char)
  | '.' :: r =>
    let ds := r.span Char.isDigit
    if ds.1 = [] then none
    else some (digitsToNat (ds.1.take 9) * 10 ^ (9 - min 9 ds.1.length), ds.2)
  | l => some (0, l)

/-- Timezone: `Z`, or a signed `hh:mm` offset in minutes. -/
def parseZone : List Char → Option (Int × List Char)
  | 'Z' :: r => some (0, r)
  | c :: r =>
    if c = '+' ∨ c = '-' then
      match parseD2 r with
      | none => none
      | some (h, r1) =>
        match r1 with
        | ':' :: r2 =>
          match parseD2 r2 with
          | none => none
          | some (m, r3) =>
            if h ≤ 23 ∧ m ≤ 59 then
              some ((if c = '-' then -1 else 1) * (h * 60 + m : Nat), r3)
            else none
        | _ => none
    else none
  | [] => none

/-- `time.Parse(time.RFC3339, s)`: strict `YYYY-MM-DDThh:mm:ss` with
optional fractional seconds and a `Z` or `±hh:mm` zone, with calendar
range validation. -/
def parseRFC3339 (s : String) : Option PVal :=
  match parseD4 s.data with
  | none => none
  | some (y, r1) =>
    match r1 with
    | '-' :: r2 =>
      match parseD2 r2 with
      | none => none
      | some (mo, r3) =>
        match r3 with
        | '-' :: r4 =>
          match parseD2 r4 with
          | none => none
          | some (d, r5) =>
            match r5 with
            | 'T' :: r6 =>
              match parseD2 r6 with
              | none => none
              | some (h, r7) =>
                match r7 with
                | ':' :: r8 =>
                  match parseD2 r8 with
                  | none => none
                  | some (mi, r9) =>
                    match r9 with
                    | ':' :: r10 =>
                      match parseD2 r10 with
                      | none => none
                      | some (se, r11) =>
                        match parseFrac r11 with
                        | none => none
                        | some (ns, r12) =>
                          match parseZone r12 with
                          | none => none
                          | some (off, r13) =>
                            if r13 = [] ∧ 1 ≤ mo ∧ mo ≤ 12 ∧ 1 ≤ d ∧
                                d ≤ daysInMonth y mo ∧ h ≤ 23 ∧ mi ≤ 59 ∧ se ≤ 59 then
                              some (.date y mo d h mi se ns off)
                            else none
                    | _ => none
                | _ => none
            | _ => none
        | _ => none
    | _ => none

/-- Value of one base64 alphabet character. -/
def b64Val (c : Char) : Option Nat :=
  if 'A' ≤ c ∧ c ≤ 'Z' then some (c.toNat - 65)
  else if 'a' ≤ c ∧ c ≤ 'z' then some (c.toNat - 97 + 26)
  else if '0' ≤ c ∧ c ≤ '9' then some (c.toNat - 48 + 52)
  else if c = '+' then some 62
  else if c = '/' then some 63
  else none

/-- Decode padded base64 quanta; a padded group must be last. -/
def b64Groups : List Char → Option (List Nat)
  | [] => some []
  | [a, b, '=', '='] =>
    match b64Val a, b64Val b with
    | some va, some vb => some [va * 4 + vb / 16]
    | _, _ => none
  | [a, b, c, '='] =>
    match b64Val a, b64Val b, b64Val c with
    | some va, some vb, some vc => some [va * 4 + vb / 16, vb % 16 * 16 + vc / 4]
    | _, _, _ => none
  | a :: b :: c :: d :: rest =>
    match b64Val a, b64Val b, b64Val c, b64Val d with
    | some va, some vb, some vc, some vd =>
      match b64Groups rest with
      | some bs => some ((va * 4 + vb / 16) :: (vb % 16 * 16 + vc / 4) :: (vc % 4 * 64 + vd) :: bs)
      | none => none
    | _, _, _, _ => none
  | _ => none

/-- `base64.StdEncoding.DecodeString`: newlines are skipped, the rest
must be complete, padded quanta. -/
def goBase64Decode (s : String) : Option (List Nat) :=
  b64Groups (s.data.filter (fun c => ¬(c = '\n' ∨ c = '\r')))

/-- The nesting-counter loop of `skipValue`: `n` is the counter; a token
whose second byte is `/` decrements it (error at zero, stop when it
returns to zero), any other token increments it.  Note self-closing
tokens such as `<true/>` do *not* have `/` as their second byte and are
counted as opening tags. -/
def skipValueAux : Nat → List Char → Nat → Except PErr (List Char)
  | 0, _, _ => .error .outOfFuel
  | fuel + 1, data, n =>
    match next data with
    | (_, tag, rest) =>
      if tag.length = 0 then .error (.msg "unexpected eof")
      else if tag.getD 1 ' ' = '/' then
        if n = 0 then .error (.msg "unexpected closing tag")
        else if n = 1 then .ok rest
        else skipValueAux fuel rest (n - 1)
      else skipValueAux fuel rest (n + 1)

/-- `skipValue`: consume and discard one full value's worth of tags. -/
def skipValue (fuel : Nat) (data : List Char) : Except PErr (List Char) :=
  skipValueAux fuel data 0

mutual
/-- `unmarshalValue`: scan the opening token, dereference a pointer
destination (allocating if nil; modelled by re-entering the decoder on
the same input, which matches the in-place rebinding in the source), then
dispatch on the tag. -/
def unmarshalValue : Nat → List Char → PType → PVal → Except PErr (List Char × PVal)
  | 0, _, _, _ => .error .outOfFuel
  | fuel + 1, data, t, cur =>
    match next data with
    | (_, tag, data1) =>
      if tag = [] then .error (.msg "unexpected end of data")
      else
        match t with
        | .ptr t0 =>
          (match unmarshalValue fuel data t0 (unwrapPtr t0 cur) with
           | .error e => .error e
           | .ok (r, v) => .ok (r, .ptr (some v)))
        | _ =>
          match tagKind tag with
          | .dict =>
            (match t with
             | .strukt fields =>
               (match unmarshalDict fuel data1 fields (structVals cur fields) with
                | .error e => .error e
                | .ok (r, vs) => .ok (r, .strukt vs))
             | _ => .error (.msg ("cannot unmarshal <dict> into non-struct " ++ typeName t)))
          | .array =>
            (match t with
             | .slice et =>
               (match unmarshalArray fuel data1 et (sliceVals cur) with
                | .error e => .error e
                | .ok (r, es) => .ok (r, .slice es))
             | _ => .error (.msg ("cannot unmarshal <array> into non-slice " ++ typeName t)))
          | .str =>
            (match next data1 with
             | (body, etag, data2) =>
               if etag.length = 0 then .error (.msg "eof inside <string>")
               else if etag = s2l "</string>" then
                 (match goSet t (.str (l2s body)) with
                  | .error e => .error e
                  | .ok v => .ok (data2, v))
               else .error (.msg ("expected </string> but got " ++ l2s etag)))
          | .integer =>
            (match next data1 with
             | (body, etag, data2) =>
               if etag.length = 0 then .error (.msg "eof inside <integer>")
               else if etag = s2l "</integer>" then
                 (match goAtoi (l2s body) with
                  | none => .error (.msg ("non-integer in <integer> tag: " ++ l2s body))
                  | some n =>
                    (match goSet t (.int n) with
                     | .error e => .error e
                     | .ok v => .ok (data2, v)))
               else .error (.msg ("expected </integer> but got " ++ l2s etag)))
          | .real =>
            -- bits := 64, or 32 when the destination's kind is Float32
            (match next data1 with
             | (body, etag, data2) =>
               if etag.length = 0 then .error (.msg "eof inside <real>")
               else if etag = s2l "</real>" then
                 (match goParseFloat (l2s body) (if isFloat32T t then 32 else 64) with
                  | none => .error (.msg ("non-float in <real> tag: " ++ l2s body))
                  | some q =>
                    (match goSet t (.real q) with
                     | .error e => .error e
                     | .ok v => .ok (data2, v)))
               else .error (.msg ("expected </real> but got " ++ l2s etag)))
          | .date =>
            (match next data1 with
             | (body, etag, data2) =>
               if etag.length = 0 then .error (.msg "eof inside <date>")
               else if etag = s2l "</date>" then
                 (match parseRFC3339 (l2s body) with
                  | none => .error (.msg ("non-date in <date> tag: " ++ l2s body))
                  | some d =>
                    (match goSet t d with
                     | .error e => .error e
                     | .ok v => .ok (data2, v)))
               else .error (.msg ("expected </date> but got " ++ l2s etag)))
          | .data =>
            (match next data1 with
             | (body, etag, data2) =>
               if etag.length = 0 then .error (.msg "eof inside <data>")
               else if etag = s2l "</data>" then
                 (match goBase64Decode (l2s body) with
                  | none => .error (.msg ("non-base64 in <data> tag: " ++ l2s body))
                  | some bs =>
                    (match goSet t (.bytes bs) with
                     | .error e => .error e
                     | .ok v => .ok (data2, v)))
               else .error (.msg ("expected </data> but got " ++ l2s etag)))
          | .btrue =>
            (match goSet t (.bool true) with
             | .error e => .error e
             | .ok v => .ok (data1, v))
          | .bfalse =>
            (match goSet t (.bool false) with
             | .error e => .error e
             | .ok v => .ok (data1, v))
          | .other => .error (.msg ("unexpected tag " ++ l2s tag))

/-- The `Dict` loop of `unmarshalValue`: read `<key>`, its text, `</key>`,
bind the following value to the first matching field or skip it, until
`</dict>`. -/
def unmarshalDict : Nat → List Char → PFields → List PVal → Except PErr (List Char × List PVal)
  | 0, _, _, _ => .error .outOfFuel
  | fuel + 1, data, fields, vals =>
    match next data with
    | (_, tag, data1) =>
      if tag.length = 0 then .error (.msg "eof inside <dict>")
      else if tag = s2l "</dict>" then .ok (data1, vals)
      else if tag = s2l "<key>" then
        match next data1 with
        | (body, tag2, data2) =>
          if tag2.length = 0 then .error (.msg "eof inside <dict>")
          else if tag2 = s2l "</key>" then
            match findField fields (l2s body) with
            | some i =>
              (match unmarshalValue fuel data2 (fields.getD i dfltField).2.2
                  (vals.getD i (.iface none)) with
               | .error e => .error e
               | .ok (r, v) => unmarshalDict fuel r fields (vals.set i v))
            | none =>
              (match skipValue fuel data2 with
               | .error e => .error e
               | .ok r => unmarshalDict fuel r fields vals)
          else .error (.msg ("unexpected tag " ++ l2s tag2 ++ " inside <dict>"))
      else .error (.msg ("unexpected tag " ++ l2s tag ++ " inside <dict>"))

/-- The `<array>` loop of `unmarshalValue`: peek at the next token, stop
at `</array>`, otherwise decode one value into a fresh zero element and
append it. -/
def unmarshalArray : Nat → List Char → PType → List PVal → Except PErr (List Char × List PVal)
  | 0, _, _, _ => .error .outOfFuel
  | fuel + 1, data, elemT, acc =>
    match next data with
    | (_, tag, rest) =>
      if tag.length = 0 then .error (.msg "eof inside <array>")
      else if tag = s2l "</array>" then .ok (rest, acc)
      else
        match unmarshalValue fuel data elemT (zeroVal elemT) with
        | .error e => .error e
        | .ok (data', v) => unmarshalArray fuel data' elemT (acc ++ [v])
end

/-- The declaration tokens `Unmarshal` skips (`<?xml`, `<!DOCTYPE`). -/
def isDecl (tag : List Char) : Bool :=
  (s2l "<?xml").isPrefixOf tag || (s2l "<!DOCTYPE").isPrefixOf tag

/-- The root wrapper marker check (`<plist`). -/
def isRoot (tag : List Char) : Bool :=
  (s2l "<plist").isPrefixOf tag

/-- The envelope loop of `Unmarshal`: scan tokens, skipping declaration
and doctype tokens, until a token starting with `<plist` is found;
any other first token (or exhaustion) is "not a plist". -/
def findPlist : Nat → List Char → Except PErr (List Char)
  | 0, _ => .error .outOfFuel
  | fuel + 1, data =>
    match next data with
    | (_, tag, rest) =>
      if isDecl tag then findPlist fuel rest
      else if isRoot tag then .ok rest
      else .error (.msg "not a plist")

/-- `Unmarshal`: find the `<plist ...>` wrapper, decode exactly one value,
then require the next token to be `</plist>` ("junk on end of plist"
otherwise).  The fuel is one more than the input length, which exceeds
the number of tokens any run can consume. -/
def Unmarshal (data : List Char) (t : PType) (cur : PVal) : Except PErr PVal :=
  match findPlist (data.length + 1) data with
  | .error e => .error e
  | .ok data1 =>
    match unmarshalValue (data.length + 1) data1 t cur with
    | .error e => .error e
    | .ok (data2, v) =>
      match next data2 with
      | (_, tag, _) =>
        if tag = s2l "</plist>" then .ok v
        else .error (.msg "junk on end of plist")

/-! ## Definitions used to state the claims -/

/-- Whether a type descriptor is a pointer (`reflect.Ptr` kind). -/
def isPtrT : PType → Bool
  | .ptr _ => true
  | _ => false

/-- Whether a type descriptor is a struct (`reflect.Struct` kind). -/
def isStructT : PType → Bool
  | .strukt _ => true
  | _ => false

/-- Whether a type descriptor is a slice (`reflect.Slice` kind). -/
def isSliceT : PType → Bool
  | .slice _ => true
  | _ => false

/-- Inputs whose first token that is neither a declaration nor a doctype
token does not start with the root wrapper marker: `found` is that first
token, `step` skips one declaration token. -/
inductive NoRoot : List Char → Prop where
  | found : ∀ data, isDecl (next data).2.1 = false → isRoot (next data).2.1 = false →
      NoRoot data
  | step : ∀ data, isDecl (next data).2.1 = true → NoRoot (next data).2.2 → NoRoot data

/-- An array entry of a mixed-kind document: an `<integer>` or `<real>`
element together with the value its body denotes. -/
inductive ArrEntry where
  | int (body : String) (n : Int)
  | real (body : String) (q : ℚ)

/-- The textual form of one array entry. -/
def renderEntry : ArrEntry → List Char
  | .int b _ => s2l "<integer>" ++ (s2l b ++ s2l "</integer>")
  | .real b _ => s2l "<real>" ++ (s2l b ++ s2l "</real>")

/-- The textual form of a run of array entries. -/
def renderEntries : List ArrEntry → List Char
  | [] => []
  | e :: es => renderEntry e ++ renderEntries es

/-- The dynamic value an entry decodes to: the concrete kind is the
entry's own kind, boxed into the `interface{}` element. -/
def entryVal : ArrEntry → PVal
  | .int _ n => .iface (some (.int n))
  | .real _ q => .iface (some (.real q))

/-- Well-formedness of one entry: its body parses to its value (at 64-bit
width, as selected for a dynamic destination) and contains no `<`. -/
def arrEntryOk : ArrEntry → Prop
  | .int b n => goAtoi b = some n ∧ '<' ∉ s2l b
  | .real b q => goParseFloat b 64 = some q ∧ '<' ∉ s2l b

/-! ## Scanner lemmas -/

/-- `String.mk` after `String.data` is the identity. -/
theorem l2s_s2l (s : String) : l2s (s2l s) = s := rfl

theorem spanUntil_nil (c : Char) : spanUntil c [] = none := rfl

theorem spanUntil_cons_self {c : Char} (xs : List Char) :
    spanUntil c (c :: xs) = some ([], c :: xs) := by
  simp [spanUntil]

theorem spanUntil_cons_ne {c x : Char} (xs : List Char) (h : ¬x = c) :
    spanUntil c (x :: xs) =
      (spanUntil c xs).map (fun p => (x :: p.1, p.2)) := by
  simp only [spanUntil, if_neg h]
  match spanUntil c xs with
  | none => rfl
  | some (a, b) => rfl

theorem spanUntil_of_not_mem {c : Char} : ∀ {xs : List Char}, c ∉ xs → spanUntil c xs = none
  | [], _ => rfl
  | x :: xs, h => by
    have hx : ¬x = c := fun e => h (e ▸ List.mem_cons_self x xs)
    have hxs : c ∉ xs := fun m => h (List.mem_cons_of_mem x m)
    rw [spanUntil_cons_ne xs hx, spanUntil_of_not_mem hxs]
    rfl

theorem spanUntil_find {c : Char} :
    ∀ {pre : List Char} (xs : List Char), c ∉ pre →
      spanUntil c (pre ++ c :: xs) = some (pre, c :: xs)
  | [], xs, _ => spanUntil_cons_self xs
  | p :: pre, xs, h => by
    have hp : ¬p = c := fun e => h (e ▸ List.mem_cons_self p pre)
    have hpre : c ∉ pre := fun m => h (List.mem_cons_of_mem p m)
    rw [List.cons_append, spanUntil_cons_ne _ hp, spanUntil_find xs hpre]
    rfl

theorem spanUntil_parts {c : Char} :
    ∀ {xs a b : List Char}, spanUntil c xs = some (a, b) → xs = a ++ b ∧ 0 < b.length
  | [], a, b, h => by simp [spanUntil] at h
  | x :: xs, a, b, h => by
    by_cases hx : x = c
    · subst hx
      rw [spanUntil_cons_self] at h
      obtain ⟨ha, hb⟩ := Prod.mk.injEq .. ▸ (Option.some.injEq .. ▸ h :)
      subst ha
      subst hb
      exact ⟨rfl, by simp⟩
    · rw [spanUntil_cons_ne xs hx] at h
      match he : spanUntil c xs with
      | none => rw [he] at h; simp at h
      | some (a', b') =>
        rw [he] at h
        simp only [Option.map_some'] at h
        obtain ⟨ha, hb⟩ := Prod.mk.injEq .. ▸ (Option.some.injEq .. ▸ h :)
        obtain ⟨hxs, hlen⟩ := spanUntil_parts he
        subst ha
        subst hb
        exact ⟨by rw [hxs]; rfl, hlen⟩

/-- The scanner on a span whose first `<` is followed by a `>`:
text before, token, rest after. -/
theorem next_token (pre body rest : List Char) (h1 : '<' ∉ pre) (h2 : '>' ∉ body) :
    next (pre ++ '<' :: (body ++ '>' :: rest)) = (pre, '<' :: body ++ ['>'], rest) := by
  have hlt : ('<' : Char) ≠ '>' := by decide
  unfold next
  rw [spanUntil_find _ h1]
  dsimp only
  rw [spanUntil_cons_ne _ hlt, spanUntil_find _ h2]
  rfl

/-- The scanner on a span whose first `<` has no later `>`: the whole span
comes back as content with an empty token. -/
theorem next_exhaust (pre post : List Char) (h1 : '<' ∉ pre) (h2 : '>' ∉ post) :
    next (pre ++ '<' :: post) = (pre ++ '<' :: post, [], []) := by
  have hlt : ('<' : Char) ≠ '>' := by decide
  unfold next
  rw [spanUntil_find _ h1]
  dsimp only
  rw [spanUntil_cons_ne _ hlt, spanUntil_of_not_mem h2]
  rfl

/-- The scanner on a span with no `<` at all. -/
theorem next_no_open (data : List Char) (h : '<' ∉ data) : next data = (data, [], []) := by
  unfold next
  rw [spanUntil_of_not_mem h]

/-- When the scanner finds a token, the rest is strictly shorter. -/
theorem next_shrink {data : List Char} (h : (next data).2.1 ≠ []) :
    (next data).2.2.length < data.length := by
  revert h
  unfold next
  match h1 : spanUntil '<' data with
  | none => intro h; simp at h
  | some (skip, tdata) =>
    dsimp only
    match h2 : spanUntil '>' tdata with
    | none => intro h; simp at h
    | some (tok, rest') =>
      dsimp only
      match rest' with
      | [] => intro h; simp at h
      | g :: rest =>
        intro _
        obtain ⟨hd, _⟩ := spanUntil_parts h1
        obtain ⟨ht, _⟩ := spanUntil_parts h2
        subst hd
        subst ht
        simp
        omega

/-! ## Token instances of the scanner lemmas -/

theorem next_dict (rest : List Char) :
    next (s2l "<dict>" ++ rest) = ([], s2l "<dict>", rest) :=
  next_token [] (s2l "dict") rest (by decide) (by decide)

theorem next_array (rest : List Char) :
    next (s2l "<array>" ++ rest) = ([], s2l "<array>", rest) :=
  next_token [] (s2l "array") rest (by decide) (by decide)

theorem next_key (rest : List Char) :
    next (s2l "<key>" ++ rest) = ([], s2l "<key>", rest) :=
  next_token [] (s2l "key") rest (by decide) (by decide)

theorem next_integer (rest : List Char) :
    next (s2l "<integer>" ++ rest) = ([], s2l "<integer>", rest) :=
  next_token [] (s2l "integer") rest (by decide) (by decide)

theorem next_real (rest : List Char) :
    next (s2l "<real>" ++ rest) = ([], s2l "<real>", rest) :=
  next_token [] (s2l "real") rest (by decide) (by decide)

theorem next_close_array (rest : List Char) :
    next (s2l "</array>" ++ rest) = ([], s2l "</array>", rest) :=
  next_token [] (s2l "/array") rest (by decide) (by decide)

theorem next_body_integer (b : String) (rest : List Char) (hb : '<' ∉ s2l b) :
    next (s2l b ++ (s2l "</integer>" ++ rest)) = (s2l b, s2l "</integer>", rest) :=
  next_token (s2l b) (s2l "/integer") rest hb (by decide)

theorem next_body_real (b : String) (rest : List Char) (hb : '<' ∉ s2l b) :
    next (s2l b ++ (s2l "</real>" ++ rest)) = (s2l b, s2l "</real>", rest) :=
  next_token (s2l b) (s2l "/real") rest hb (by decide)

theorem next_key_body (name : String) (rest : List Char) (hn : '<' ∉ s2l name) :
    next (s2l name ++ (s2l "</key>" ++ rest)) = (s2l name, s2l "</key>", rest) :=
  next_token (s2l name) (s2l "/key") rest hn (by decide)

theorem tagKind_dict : tagKind (s2l "<dict>") = .dict := rfl

theorem tagKind_array : tagKind (s2l "<array>") = .array := rfl

theorem tagKind_integer : tagKind (s2l "<integer>") = .integer := rfl

theorem tagKind_real : tagKind (s2l "<real>") = .real := rfl

/-! ## The claims -/

/-- C1: the claim says the skip-subtree routine consumes a self-closing
boolean value token without changing the nesting count.  The code instead
counts `<true/>` as an opening tag: started at the value position of an
unmatched mapping entry, `skipValue` consumes the boolean *and* the
enclosing `</dict>` (returning `"x"` instead of `"</dict>x"`), so the
skip ends past the correct position. -/
theorem c1_skip_selfclosing_eval :
    skipValue 8 (s2l "<true/></dict>x") = .ok (s2l "x") := rfl

/-- C2: the claim says every well-formed mapping document decodes into a
zero-slot Composite without error.  On a well-formed mapping whose single
entry has a boolean value, the skip miscount of C1 makes the dict loop
resume at `</plist>` and fail with "unexpected tag </plist> inside
<dict>". -/
theorem c2_empty_struct_eval :
    Unmarshal (s2l "<plist><dict><key>A</key><true/></dict></plist>")
      (.strukt .nil) (.strukt []) =
    .error (.msg "unexpected tag </plist> inside <dict>") := rfl

/-- C8: the claim says a 32-bit Real destination receives the value
parsed at 32-bit precision.  The code does select `bitSize = 32` for a
`float32` destination, but then passes the `float64` result of
`strconv.ParseFloat` to `reflect.Value.Set`, which panics because
`float64` is not assignable to `float32`; nothing is ever stored. -/
theorem c8_real_float32_eval :
    unmarshalValue 4 (s2l "<real>1.5</real>") .float32 (.real 0) =
    .error (.panic "reflect.Set: value of type float64 is not assignable to type float32") := rfl

/-- C10: a span holding a `<` with no `>` at or after it is returned
whole as content with an empty token, exactly as when no `<` occurs. -/
theorem c10_truncated_scan :
    (∀ pre post : List Char, '<' ∉ pre → '>' ∉ post →
      next (pre ++ '<' :: post) = (pre ++ '<' :: post, [], []))
    ∧ ∀ data : List Char, '<' ∉ data → next data = (data, [], []) :=
  ⟨next_exhaust, next_no_open⟩

/-- C10 witness: concrete truncated-tag span and concrete tag-free span. -/
theorem c10_truncated_scan_witness :
    next (s2l "ab<cd") = (s2l "ab<cd", [], []) ∧ next (s2l "xy") = (s2l "xy", [], []) :=
  ⟨c10_truncated_scan.1 (s2l "ab") (s2l "cd") (by decide) (by decide),
   c10_truncated_scan.2 (s2l "xy") (by decide)⟩

/-- C3 counterexample: the claim says `<dict>` dispatch succeeds for a
Dynamic (`interface{}`) destination; the code's `Kind() != Struct` check
rejects it with the type-mismatch error. -/
theorem c3_dict_dynamic_cx :
    unmarshalValue 5 (s2l "<dict></dict>") .iface (.iface none) =
    .error (.msg "cannot unmarshal <dict> into non-struct interface \x7b\x7d") := rfl

/-- C3 (amended): `<dict>` dispatch succeeds exactly for a Composite
(struct) destination, entering the key/value loop; every other
non-pointer destination shape — Dynamic included — fails with a
type-mismatch error naming the destination's actual shape. -/
theorem c3_dict_dispatch :
    (∀ (fuel : Nat) (rest : List Char) (fields : PFields) (cur : PVal),
      unmarshalValue (fuel + 1) (s2l "<dict>" ++ rest) (.strukt fields) cur =
        match unmarshalDict fuel rest fields (structVals cur fields) with
        | .error e => .error e
        | .ok (r, vs) => .ok (r, .strukt vs))
    ∧ (∀ (fuel : Nat) (rest : List Char) (t : PType) (cur : PVal),
      isPtrT t = false → isStructT t = false →
      unmarshalValue (fuel + 1) (s2l "<dict>" ++ rest) t cur =
        .error (.msg ("cannot unmarshal <dict> into non-struct " ++ typeName t))) := by
  constructor
  · intro fuel rest fields cur
    rfl
  · intro fuel rest t cur h1 h2
    cases t with
    | ptr e => exact absurd h1 (by simp [isPtrT])
    | strukt fs => exact absurd h2 (by simp [isStructT])
    | str => rfl
    | int => rfl
    | float32 => rfl
    | float64 => rfl
    | bool => rfl
    | date => rfl
    | uint8 => rfl
    | slice e => rfl
    | iface => rfl

/-- C3 witness: the Composite equation at an empty dict, and the
type-mismatch error at an `int` destination. -/
theorem c3_dict_dispatch_witness :
    unmarshalValue 4 (s2l "<dict>" ++ s2l "</dict>") (.strukt .nil) (.strukt []) =
      (match unmarshalDict 3 (s2l "</dict>") .nil (structVals (.strukt []) .nil) with
        | .error e => .error e
        | .ok (r, vs) => .ok (r, .strukt vs))
    ∧ (isPtrT .int = false ∧ isStructT .int = false
    ∧ unmarshalValue 4 (s2l "<dict>" ++ s2l "</dict>") .int (.int 0) =
        .error (.msg ("cannot unmarshal <dict> into non-struct " ++ typeName .int))) :=
  ⟨c3_dict_dispatch.1 3 (s2l "</dict>") .nil (.strukt []),
   rfl, rfl, c3_dict_dispatch.2 3 (s2l "</dict>") .int (.int 0) rfl rfl⟩

/-- C4 counterexample: the claim says `<array>` dispatch succeeds for a
Dynamic (`interface{}`) destination; the code's `Kind() != Slice` check
rejects it with the type-mismatch error. -/
theorem c4_array_dynamic_cx :
    unmarshalValue 5 (s2l "<array></array>") .iface (.iface none) =
    .error (.msg "cannot unmarshal <array> into non-slice interface \x7b\x7d") := rfl

/-- C4 (amended): `<array>` dispatch succeeds exactly for a Sequence
(slice) destination, entering the element loop; every other non-pointer
destination shape — Dynamic included — fails with a type-mismatch error
naming the destination's actual shape. -/
theorem c4_array_dispatch :
    (∀ (fuel : Nat) (rest : List Char) (et : PType) (cur : PVal),
      unmarshalValue (fuel + 1) (s2l "<array>" ++ rest) (.slice et) cur =
        match unmarshalArray fuel rest et (sliceVals cur) with
        | .error e => .error e
        | .ok (r, es) => .ok (r, .slice es))
    ∧ (∀ (fuel : Nat) (rest : List Char) (t : PType) (cur : PVal),
      isPtrT t = false → isSliceT t = false →
      unmarshalValue (fuel + 1) (s2l "<array>" ++ rest) t cur =
        .error (.msg ("cannot unmarshal <array> into non-slice " ++ typeName t))) := by
  constructor
  · intro fuel rest et cur
    rfl
  · intro fuel rest t cur h1 h2
    cases t with
    | ptr e => exact absurd h1 (by simp [isPtrT])
    | slice e => exact absurd h2 (by simp [isSliceT])
    | str => rfl
    | int => rfl
    | float32 => rfl
    | float64 => rfl
    | bool => rfl
    | date => rfl
    | uint8 => rfl
    | strukt fs => rfl
    | iface => rfl

/-- C4 witness: the Sequence equation at an empty array, and the
type-mismatch error at a `bool` destination. -/
theorem c4_array_dispatch_witness :
    unmarshalValue 4 (s2l "<array>" ++ s2l "</array>") (.slice .int) (.slice []) =
      (match unmarshalArray 3 (s2l "</array>") .int (sliceVals (.slice [])) with
        | .error e => .error e
        | .ok (r, es) => .ok (r, .slice es))
    ∧ (isPtrT .bool = false ∧ isSliceT .bool = false
    ∧ unmarshalValue 4 (s2l "<array>" ++ s2l "</array>") .bool (.bool false) =
        .error (.msg ("cannot unmarshal <array> into non-slice " ++ typeName .bool))) :=
  ⟨c4_array_dispatch.1 3 (s2l "</array>") .int (.slice []),
   rfl, rfl, c4_array_dispatch.2 3 (s2l "</array>") .bool (.bool false) rfl rfl⟩

/-- C5 counterexample: the claim says any content after the root
wrapper's closing tag fails with a trailing-content error; the code only
inspects the one token after the value and accepts `<junk>` after
`</plist>`. -/
theorem c5_trailing_cx :
    Unmarshal (s2l "<plist><true/></plist><junk>") .bool (.bool false) =
    .ok (.bool true) := rfl

/-- C5 (amended): after the root value, the decode succeeds exactly when
the next token is `</plist>`; otherwise it fails with the
trailing-content error.  Content after that closing token (and stray
text before it) is not examined and never causes failure. -/
theorem c5_trailing_content (rest : List Char) (b : Bool) :
    Unmarshal (s2l "<plist>" ++ (s2l "<true/>" ++ rest)) .bool (.bool b) =
      if (next rest).2.1 = s2l "</plist>" then .ok (.bool true)
      else .error (.msg "junk on end of plist") := rfl

/-! ## C6: key-to-slot binding -/

theorem findField_spec : ∀ (fields : PFields) (name : String),
    match findField fields name with
    | some i => i < fields.length ∧ fieldMatches (fields.getD i dfltField) name = true ∧
        ∀ j, j < i → fieldMatches (fields.getD j dfltField) name = false
    | none => ∀ j, j < fields.length → fieldMatches (fields.getD j dfltField) name = false
  | .nil, name => by
    intro j hj
    simp [PFields.length] at hj
  | .cons n tg t rest, name => by
    have ih := findField_spec rest name
    by_cases hm : fieldMatches (n, tg, t) name = true
    · simp only [findField, if_pos hm]
      refine ⟨by simp [PFields.length], by simpa [PFields.getD] using hm, ?_⟩
      intro j hj
      omega
    · have hm' : fieldMatches (n, tg, t) name = false := by
        revert hm
        cases fieldMatches (n, tg, t) name <;> simp
      simp only [findField, if_neg hm]
      match he : findField rest name with
      | some i =>
        rw [he] at ih
        simp only [Option.map_some']
        refine ⟨by simp [PFields.length]; omega, by simpa [PFields.getD] using ih.2.1, ?_⟩
        intro j hj
        cases j with
        | zero => simpa [PFields.getD] using hm'
        | succ j => simpa [PFields.getD] using ih.2.2 j (by omega)
      | none =>
        rw [he] at ih
        simp only [Option.map_none']
        intro j hj
        cases j with
        | zero => simpa [PFields.getD] using hm'
        | succ j =>
          have hj' : j < rest.length := by
            simp [PFields.length] at hj
            omega
          simpa [PFields.getD] using ih j hj'

theorem dict_step (fuel : Nat) (fields : PFields) (vals : List PVal) (name : String)
    (rest : List Char) (hn : '<' ∉ s2l name) :
    unmarshalDict (fuel + 1) (s2l "<key>" ++ (s2l name ++ (s2l "</key>" ++ rest))) fields vals =
      match findField fields name with
      | some i =>
        (match unmarshalValue fuel rest (fields.getD i dfltField).2.2 (vals.getD i (.iface none)) with
         | .error e => .error e
         | .ok (r, v) => unmarshalDict fuel r fields (vals.set i v))
      | none =>
        (match skipValue fuel rest with
         | .error e => .error e
         | .ok r => unmarshalDict fuel r fields vals) := by
  simp only [unmarshalDict]
  rw [next_key]
  dsimp only
  rw [next_key_body name rest hn]
  dsimp only
  simp only [l2s_s2l]
  cases hf : findField fields name <;> rfl

/-- C6 counterexample: the claim says a key is bound only when a slot's
declared name or override binding name equals the key text.  An empty
key text matches the first slot that has *no* override tag — because
`Tag.Get("plist")` returns the empty string — so the slot `A : bool`
receives the value even though its name is not `""` and it carries no
override binding. -/
theorem c6_empty_key_cx :
    Unmarshal (s2l "<plist><dict><key></key><true/></dict></plist>")
      (.strukt (.cons "A" none .bool .nil)) (.strukt [.bool false]) =
      .ok (.strukt [.bool true])
    ∧ "A" ≠ "" ∧ (none : Option String) ≠ some "" :=
  ⟨rfl, by decide, by decide⟩

/-- C6 (amended): a mapping key is bound to the first slot in declaration
order whose declared name or whose override binding name — where a slot
without an override tag behaves as if its override name were the empty
string — equals the key text exactly; at most one slot (that first
match) receives the value, and when no slot matches the value is handed
to the skip-subtree routine. -/
theorem c6_key_binding :
    (∀ (fields : PFields) (name : String),
      match findField fields name with
      | some i => i < fields.length ∧ fieldMatches (fields.getD i dfltField) name = true ∧
          ∀ j, j < i → fieldMatches (fields.getD j dfltField) name = false
      | none => ∀ j, j < fields.length → fieldMatches (fields.getD j dfltField) name = false)
    ∧ (∀ (fuel : Nat) (fields : PFields) (vals : List PVal) (name : String)
        (rest : List Char), '<' ∉ s2l name →
      unmarshalDict (fuel + 1) (s2l "<key>" ++ (s2l name ++ (s2l "</key>" ++ rest))) fields vals =
        match findField fields name with
        | some i =>
          (match unmarshalValue fuel rest (fields.getD i dfltField).2.2
              (vals.getD i (.iface none)) with
           | .error e => .error e
           | .ok (r, v) => unmarshalDict fuel r fields (vals.set i v))
        | none =>
          (match skipValue fuel rest with
           | .error e => .error e
           | .ok r => unmarshalDict fuel r fields vals)) :=
  ⟨findField_spec, dict_step⟩

/-- C6 witness: one concrete dict entry bound to its matching slot. -/
theorem c6_key_binding_witness :
    unmarshalDict 3 (s2l "<key>" ++ (s2l "A" ++ (s2l "</key>" ++ s2l "<true/></dict>")))
      (.cons "A" none .bool .nil) [.bool false] = .ok ([], [.bool true]) := by
  have h := c6_key_binding.2 2 (.cons "A" none .bool .nil) [.bool false] "A"
    (s2l "<true/></dict>") (by decide)
  exact h.trans (by rfl)

/-! ## C7: mixed-kind arrays into a Sequence of Dynamic -/

theorem unm_int_entry (fuel : Nat) (b : String) (n : Int) (rest : List Char)
    (hp : goAtoi b = some n) (hb : '<' ∉ s2l b) :
    unmarshalValue (fuel + 1) (s2l "<integer>" ++ (s2l b ++ (s2l "</integer>" ++ rest)))
      .iface (.iface none) = .ok (rest, .iface (some (.int n))) := by
  simp only [unmarshalValue]
  rw [next_integer]
  dsimp only
  rw [tagKind_integer]
  dsimp only
  rw [next_body_integer b rest hb]
  dsimp only
  simp only [l2s_s2l]
  rw [hp]
  rfl

theorem unm_real_entry (fuel : Nat) (b : String) (q : ℚ) (rest : List Char)
    (hp : goParseFloat b 64 = some q) (hb : '<' ∉ s2l b) :
    unmarshalValue (fuel + 1) (s2l "<real>" ++ (s2l b ++ (s2l "</real>" ++ rest)))
      .iface (.iface none) = .ok (rest, .iface (some (.real q))) := by
  simp only [unmarshalValue]
  rw [next_real]
  dsimp only
  rw [tagKind_real]
  dsimp only
  rw [next_body_real b rest hb]
  dsimp only
  simp only [l2s_s2l]
  rw [show (if isFloat32T PType.iface = true then 32 else 64) = 64 from rfl, hp]
  rfl

theorem unm_entry (fuel : Nat) (e : ArrEntry) (rest : List Char) (he : arrEntryOk e) :
    unmarshalValue (fuel + 1) (renderEntry e ++ rest) .iface (.iface none)
      = .ok (rest, entryVal e) := by
  cases e with
  | int b n =>
    simpa [renderEntry, entryVal, List.append_assoc] using
      unm_int_entry fuel b n rest he.1 he.2
  | real b q =>
    simpa [renderEntry, entryVal, List.append_assoc] using
      unm_real_entry fuel b q rest he.1 he.2

theorem unm_array_entries : ∀ (entries : List ArrEntry) (fuel : Nat) (acc : List PVal)
    (rest : List Char), entries.length + 1 ≤ fuel → (∀ e ∈ entries, arrEntryOk e) →
    unmarshalArray fuel (renderEntries entries ++ (s2l "</array>" ++ rest)) .iface acc
      = .ok (rest, acc ++ entries.map entryVal)
  | [], fuel, acc, rest, hf, _ => by
    obtain ⟨f, rfl⟩ : ∃ f, fuel = f + 1 := ⟨fuel - 1, by omega⟩
    simp only [renderEntries, List.nil_append]
    simp only [unmarshalArray]
    rw [next_close_array]
    dsimp only
    rw [if_neg (by decide), if_pos rfl]
    simp
  | e :: es, fuel, acc, rest, hf, hok => by
    simp only [List.length_cons] at hf
    obtain ⟨f, rfl⟩ : ∃ f, fuel = f + 1 := ⟨fuel - 1, by omega⟩
    obtain ⟨f', rfl⟩ : ∃ f', f = f' + 1 := ⟨f - 1, by omega⟩
    have hlen : es.length + 1 ≤ f' + 1 := by omega
    have hde := unm_entry f' e (renderEntries es ++ (s2l "</array>" ++ rest))
      (hok e (List.mem_cons_self e es))
    have hes := unm_array_entries es (f' + 1) (acc ++ [entryVal e]) rest hlen
      (fun x hx => hok x (List.mem_cons_of_mem e hx))
    simp only [renderEntries, List.append_assoc]
    cases e with
    | int b n =>
      simp only [renderEntry, List.append_assoc] at hde ⊢
      conv_lhs => rw [unmarshalArray]
      rw [next_integer]
      dsimp only
      rw [if_neg (by decide), if_neg (by decide),
        show zeroVal .iface = .iface none from rfl, hde]
      dsimp only
      rw [hes]
      simp
    | real b q =>
      simp only [renderEntry, List.append_assoc] at hde ⊢
      conv_lhs => rw [unmarshalArray]
      rw [next_real]
      dsimp only
      rw [if_neg (by decide), if_neg (by decide),
        show zeroVal .iface = .iface none from rfl, hde]
      dsimp only
      rw [hes]
      simp

/-- C7: decoding a well-formed array of `<integer>` and `<real>` entries
into a Sequence-of-Dynamic destination appends one element per entry in
encountered order, each element boxing the concrete kind decoded — an
integer entry yields an integer-tagged element and a real entry a
real-tagged element, in their original positions. -/
theorem c7_mixed_array (entries : List ArrEntry) (fuel : Nat) (cur : List PVal)
    (rest : List Char) (hf : entries.length + 2 ≤ fuel)
    (hok : ∀ e ∈ entries, arrEntryOk e) :
    unmarshalValue fuel (s2l "<array>" ++ (renderEntries entries ++ (s2l "</array>" ++ rest)))
      (.slice .iface) (.slice cur) = .ok (rest, .slice (cur ++ entries.map entryVal)) := by
  obtain ⟨f, rfl⟩ : ∃ f, fuel = f + 1 := ⟨fuel - 1, by omega⟩
  simp only [unmarshalValue]
  rw [next_array]
  dsimp only
  rw [tagKind_array]
  dsimp only
  rw [show sliceVals (.slice cur) = cur from rfl,
    unm_array_entries entries f cur rest (by omega) hok]
  rfl

/-- C7 witness: the test file's mixed scores array `8, 4.9, 9` decodes
into the dynamic sequence `[int 8, real 4.9, int 9]`. -/
theorem c7_mixed_array_witness :
    unmarshalValue 5
      (s2l "<array><integer>8</integer><real>4.9</real><integer>9</integer></array>")
      (.slice .iface) (.slice []) =
      .ok ([], .slice [.iface (some (.int 8)), .iface (some (.real (mkRat 49 10))),
        .iface (some (.int 9))]) := by
  have h := c7_mixed_array [.int "8" 8, .real "4.9" (mkRat 49 10), .int "9" 9] 5 [] []
    (by decide)
    (by
      intro e he
      simp only [List.mem_cons, List.not_mem_nil, or_false] at he
      rcases he with rfl | rfl | rfl
      · exact ⟨rfl, by decide⟩
      · exact ⟨rfl, by decide⟩
      · exact ⟨rfl, by decide⟩)
  exact h.trans (by rfl)

/-! ## C9: inputs without the root wrapper -/

theorem isDecl_ne_nil {tag : List Char} (h : isDecl tag = true) : tag ≠ [] := by
  intro e
  subst e
  exact absurd h (by decide)

theorem findPlist_noRoot {data : List Char} (h : NoRoot data) :
    ∀ fuel, data.length < fuel → findPlist fuel data = .error (.msg "not a plist") := by
  induction h with
  | found d h1 h2 =>
    intro fuel hf
    obtain ⟨f, rfl⟩ : ∃ f, fuel = f + 1 := ⟨fuel - 1, by omega⟩
    simp only [findPlist]
    rcases hnd : next d with ⟨sk, tg, rs⟩
    rw [hnd] at h1 h2
    simp only at h1 h2
    simp [h1, h2]
  | step d h1 h2 ih =>
    intro fuel hf
    obtain ⟨f, rfl⟩ : ∃ f, fuel = f + 1 := ⟨fuel - 1, by omega⟩
    have hsh : (next d).2.2.length < d.length := next_shrink (isDecl_ne_nil h1)
    simp only [findPlist]
    rcases hnd : next d with ⟨sk, tg, rs⟩
    rw [hnd] at h1 hsh ih
    simp only at h1 hsh ih
    simp only [h1, if_true]
    exact ih f (by omega)

/-- C9: for every input whose first non-declaration, non-doctype token
does not begin with `<plist`, decoding fails with the "not a plist"
error for every destination type and value — the value decoder is never
entered and the destination plays no role in the outcome. -/
theorem c9_notAPlist (data : List Char) (t : PType) (cur : PVal) (h : NoRoot data) :
    Unmarshal data t cur = .error (.msg "not a plist") := by
  simp only [Unmarshal]
  rw [findPlist_noRoot h (data.length + 1) (by omega)]

/-- C9 witness: an `<html>` document is rejected. -/
theorem c9_notAPlist_witness :
    Unmarshal (s2l "<html>") .bool (.bool false) = .error (.msg "not a plist") :=
  c9_notAPlist _ _ _ (.found _ rfl rfl)
